import Mathlib

/-!
Shallow embedding of the `semver` Rust library (`src/semver/src/lib.rs`):
the `Semver` value type, its `PartialEq`/`PartialOrd` implementations,
`is_comparable_with`, and the `parse` entry point built on the anchored
regular expression `RE`.

Modelling conventions:
* `u128` fields are modelled as `Nat`; `parse` enforces the `< 2^128` range
  exactly where Rust's `str::parse::<u128>` does, and `u128` comparison
  agrees with `Nat` comparison on in-range values.
* Rust `String` is modelled as Lean `String`; Rust's byte-lexicographic
  `str` ordering is modelled as codepoint-lexicographic ordering (identical
  on UTF-8 encoded text).
* The regex class `\d` is Unicode-aware in the `regex` crate
  (`\p{Nd}`); it is modelled by `isNdDigit`, the decimal-digit ranges of
  the Unicode `Nd` general category. The scanner is parametric in the
  digit class `isD`: `capturesOf` instantiates it with `isNdDigit` (the
  source regex `RE`), while `specCaptures` instantiates it with the ASCII
  `Char.isDigit` (the spec's grammar, whose `NUM` and identifier classes
  are ASCII); the two scanners agree on all-ASCII inputs
  (`specCaptures_eq_capturesOf`).
* Rust's `str::parse::<u128>` on a `NUM` capture succeeds exactly when the
  capture consists of ASCII digits and its value is below `2^128`
  (`parseU128`); a capture containing a non-ASCII `\p{Nd}` digit makes it
  fail with the integer-conversion error, not the regex error.
* The anchored regex `RE` is embedded as a deterministic scanner
  (`scanVersion`); determinism holds because every `NUM` capture is
  followed by a delimiter that cannot be a digit, and the prerelease and
  buildmetadata character classes exclude `+` and the terminator.
-/

/-- The `Semver` struct (lib.rs lines 20-27): `major`/`minor`/`patch` are
`u128` (modelled as `Nat`), `prerelease`/`buildmetadata` are
`Option<String>`. -/
structure Semver where
  major : Nat
  minor : Nat
  patch : Nat
  prerelease : Option String
  buildmetadata : Option String
deriving Repr, DecidableEq

/-- Rust's `u128::cmp`: the order on the numeric values. -/
def cmpNat (a b : Nat) : Ordering :=
  if a < b then .lt else if b < a then .gt else .eq

/-- Rust's lexicographic tuple comparison
`(self.major, self.minor, self.patch).cmp(&(other.major, other.minor, other.patch))`. -/
def cmpTriple (a b : Semver) : Ordering :=
  (cmpNat a.major b.major).then ((cmpNat a.minor b.minor).then (cmpNat a.patch b.patch))

/-- Rust's `char`/byte comparison by numeric value. -/
def cmpChar (a b : Char) : Ordering :=
  if a.toNat < b.toNat then .lt else if b.toNat < a.toNat then .gt else .eq

/-- Rust's lexicographic `str` comparison (byte order; identical to
codepoint order under UTF-8). -/
def cmpCharList : List Char → List Char → Ordering
  | [], [] => .eq
  | [], _ :: _ => .lt
  | _ :: _, [] => .gt
  | a :: l1, b :: l2 => (cmpChar a b).then (cmpCharList l1 l2)

/-- Rust's `String::cmp`. -/
def strCmp (a b : String) : Ordering := cmpCharList a.data b.data

/-- Rust's derived `Option<String>::partial_cmp`: `None < Some`, and payloads
compare by `String`'s total order, so the result is always `Some`. -/
def optStrCmp : Option String → Option String → Option Ordering
  | none, none => some .eq
  | none, some _ => some .lt
  | some _, none => some .gt
  | some a, some b => some (strCmp a b)

/-- The `PartialEq for Semver` impl (lib.rs lines 29-37): field-wise equality
of all five fields (`as_deref` only switches `Option<String>` to
`Option<&str>`, comparing the same texts). -/
def Semver.eq (a b : Semver) : Bool :=
  a.major == b.major && a.minor == b.minor && a.patch == b.patch
    && a.prerelease == b.prerelease && a.buildmetadata == b.buildmetadata

/-- The `PartialOrd for Semver` impl (lib.rs lines 39-56): compare the
`(major, minor, patch)` triples; on a tie, any difference in `prerelease`
or `buildmetadata` yields `None` (the source comment: "if prerelease or
buildmetadata are different, they are not comparable"). -/
def Semver.partial_cmp (a b : Semver) : Option Ordering :=
  match cmpTriple a b with
  | .eq =>
    match optStrCmp a.prerelease b.prerelease with
    | some .eq =>
      match optStrCmp a.buildmetadata b.buildmetadata with
      | some .eq => some .eq
      | _ => none
    | _ => none
  | ord => some ord

/-- `Semver::is_comparable_with` (lib.rs lines 116-118):
`self.partial_cmp(other).is_some()`. -/
def Semver.is_comparable_with (a b : Semver) : Bool :=
  (a.partial_cmp b).isSome

/-- Closed range test on a character's codepoint. -/
def inRange (c : Char) (lo hi : Nat) : Bool :=
  decide (lo ≤ c.toNat) && decide (c.toNat ≤ hi)

/-- The regex class `\d` of the `regex` crate: Unicode `\p{Nd}`, the
decimal-digit general category (Unicode 15.0 ranges). Only the first range
`0x30-0x39` lies below `0x80`, so on ASCII text `\d` coincides with
`[0-9]`. -/
def isNdDigit (c : Char) : Bool :=
  inRange c 0x30 0x39 || inRange c 0x660 0x669 || inRange c 0x6F0 0x6F9 ||
  inRange c 0x7C0 0x7C9 || inRange c 0x966 0x96F || inRange c 0x9E6 0x9EF ||
  inRange c 0xA66 0xA6F || inRange c 0xAE6 0xAEF || inRange c 0xB66 0xB6F ||
  inRange c 0xBE6 0xBEF || inRange c 0xC66 0xC6F || inRange c 0xCE6 0xCEF ||
  inRange c 0xD66 0xD6F || inRange c 0xDE6 0xDEF || inRange c 0xE50 0xE59 ||
  inRange c 0xED0 0xED9 || inRange c 0xF20 0xF29 || inRange c 0x1040 0x1049 ||
  inRange c 0x1090 0x1099 || inRange c 0x17E0 0x17E9 || inRange c 0x1810 0x1819 ||
  inRange c 0x1946 0x194F || inRange c 0x19D0 0x19D9 || inRange c 0x1A80 0x1A89 ||
  inRange c 0x1A90 0x1A99 || inRange c 0x1B50 0x1B59 || inRange c 0x1BB0 0x1BB9 ||
  inRange c 0x1C40 0x1C49 || inRange c 0x1C50 0x1C59 || inRange c 0xA620 0xA629 ||
  inRange c 0xA8D0 0xA8D9 || inRange c 0xA900 0xA909 || inRange c 0xA9D0 0xA9D9 ||
  inRange c 0xA9F0 0xA9F9 || inRange c 0xAA50 0xAA59 || inRange c 0xABF0 0xABF9 ||
  inRange c 0xFF10 0xFF19 || inRange c 0x104A0 0x104A9 || inRange c 0x10D30 0x10D39 ||
  inRange c 0x11066 0x1106F || inRange c 0x110F0 0x110F9 || inRange c 0x11136 0x1113F ||
  inRange c 0x111D0 0x111D9 || inRange c 0x112F0 0x112F9 || inRange c 0x11450 0x11459 ||
  inRange c 0x114D0 0x114D9 || inRange c 0x11650 0x11659 || inRange c 0x116C0 0x116C9 ||
  inRange c 0x11730 0x11739 || inRange c 0x118E0 0x118E9 || inRange c 0x11950 0x11959 ||
  inRange c 0x11C50 0x11C59 || inRange c 0x11D50 0x11D59 || inRange c 0x11DA0 0x11DA9 ||
  inRange c 0x11F50 0x11F59 || inRange c 0x16A60 0x16A69 || inRange c 0x16AC0 0x16AC9 ||
  inRange c 0x16B50 0x16B59 || inRange c 0x1D7CE 0x1D7FF || inRange c 0x1E140 0x1E149 ||
  inRange c 0x1E2F0 0x1E2F9 || inRange c 0x1E4F0 0x1E4F9 || inRange c 0x1E950 0x1E959 ||
  inRange c 0x1FBF0 0x1FBF9

/-- Character class `[a-zA-Z-]`. -/
def isAlphaHyphen (c : Char) : Bool := c.isAlpha || c = '-'

/-- Character class `[0-9a-zA-Z-]`. -/
def isIdentChar (c : Char) : Bool := c.isDigit || c.isAlpha || c = '-'

/-- The `NUM` capture language `0|[1-9]\d*`: either exactly `0`, or a
nonzero ASCII digit followed by `\d` digits (`isD` is the digit class:
`isNdDigit` in the source regex, ASCII `Char.isDigit` in the spec's
grammar). -/
def isNumStr (isD : Char → Bool) : List Char → Bool
  | [] => false
  | c :: cs => if c = '0' then cs.isEmpty else ('1' ≤ c && c ≤ '9') && cs.all isD

/-- The regex branch `\d*[a-zA-Z-][0-9a-zA-Z-]*`: leading `\d` digits,
then one letter or hyphen, then ASCII identifier characters. -/
def isLooseIdent (isD : Char → Bool) : List Char → Bool
  | [] => false
  | c :: cs => if isD c then isLooseIdent isD cs else isAlphaHyphen c && cs.all isIdentChar

/-- One prerelease identifier: `0|[1-9]\d*|\d*[a-zA-Z-][0-9a-zA-Z-]*`. -/
def isPreIdent (isD : Char → Bool) (l : List Char) : Bool :=
  isNumStr isD l || isLooseIdent isD l

/-- One buildmetadata identifier: `[0-9a-zA-Z-]+`. -/
def isBuildIdent (l : List Char) : Bool := !l.isEmpty && l.all isIdentChar

/-- Split on the literal separator `.` (used for the `(?:\.ident)*` parts;
identifiers never contain a dot, so a dot-joined sequence matches the regex
exactly when every chunk of the split is a valid identifier). -/
def splitDots : List Char → List (List Char)
  | [] => [[]]
  | c :: r =>
    if c = '.' then [] :: splitDots r
    else
      match splitDots r with
      | g :: gs => (c :: g) :: gs
      | [] => [[c]]

/-- The full prerelease capture: dot-separated `isPreIdent` identifiers. -/
def isPrereleaseStr (isD : Char → Bool) (l : List Char) : Bool :=
  (splitDots l).all (isPreIdent isD)

/-- The full buildmetadata capture: dot-separated `isBuildIdent`
identifiers. -/
def isBuildStr (l : List Char) : Bool := (splitDots l).all isBuildIdent

/-- The five captures of a successful `RE` match, as raw character lists. -/
structure Caps where
  major : List Char
  minor : List Char
  patch : List Char
  prerelease : Option (List Char)
  buildmetadata : Option (List Char)
deriving Repr, DecidableEq

/-- Scan one `NUM` capture: the maximal digit run (a `NUM` match is always
followed by `.`, `-`, `+` or the end of input, never by a digit, so the
regex can only match the maximal run) checked against `0|[1-9]\d*`. -/
def scanNum (isD : Char → Bool) (l : List Char) : Option (List Char × List Char) :=
  let ds := l.takeWhile isD
  if isNumStr isD ds then some (ds, l.dropWhile isD) else none

/-- Scan the optional `(?:-prerelease)?(?:\+buildmetadata)?$` tail. The
prerelease capture never contains `+`, so it extends to the first `+` or to
the end; the buildmetadata capture must reach the anchored end. -/
def scanTail (isD : Char → Bool) (l : List Char) :
    Option (Option (List Char) × Option (List Char)) :=
  match l with
  | [] => some (none, none)
  | c :: r =>
    if c = '-' then
      let p := r.takeWhile (fun x => x != '+')
      if isPrereleaseStr isD p then
        match r.dropWhile (fun x => x != '+') with
        | [] => some (some p, none)
        | c2 :: b =>
          if c2 = '+' then
            if isBuildStr b then some (some p, some b) else none
          else none
      else none
    else if c = '+' then
      if isBuildStr r then some (none, some r) else none
    else none

/-- Strip the optional leading `v` (regex `v?`; if the input starts with
`v` the prefix must be consumed, since `major` must start with a digit). -/
def stripV (l : List Char) : List Char :=
  match l with
  | c :: r => if c = 'v' then r else c :: r
  | [] => []

/-- Consume the literal separator `\.` between two `NUM` captures. -/
def expectDot (l : List Char) : Option (List Char) :=
  match l with
  | c :: r => if c = '.' then some r else none
  | [] => none

/-- Scan the anchored core `major \. minor \. patch tail` after the
optional `v`: each step consumes its part of the input and passes the
remainder on (`m.1` is the capture, `m.2` the remainder). -/
def scanVersion (isD : Char → Bool) (l : List Char) : Option Caps :=
  (scanNum isD l).bind fun m1 =>
  (expectDot m1.2).bind fun r2 =>
  (scanNum isD r2).bind fun m2 =>
  (expectDot m2.2).bind fun r3 =>
  (scanNum isD r3).bind fun m3 =>
  (scanTail isD m3.2).map fun t => ⟨m1.1, m2.1, m3.1, t.1, t.2⟩

/-- `RE.captures` (lib.rs lines 6-18): match the whole input against the
anchored semver regex and extract the five captures; `\d` is the
Unicode-aware `\p{Nd}` class of the `regex` crate. -/
def capturesOf (l : List Char) : Option Caps := scanVersion isNdDigit (stripV l)

/-- The grammar of the specification, for comparison with the source's
regex: identical to `capturesOf` except that every digit class is the
spec's ASCII `0-9` (spec section 4.1 writes `NUM` and the identifier
alphabets with ASCII classes only). The two differ exactly on non-ASCII
`\p{Nd}` digits. -/
def specCaptures (l : List Char) : Option Caps := scanVersion Char.isDigit (stripV l)

/-- Decimal value of a digit run, accumulator style (the value
`str::parse::<u128>` computes, before its range check). -/
def digitsValAux : Nat → List Char → Nat
  | a, [] => a
  | a, c :: cs => digitsValAux (10 * a + (c.toNat - 48)) cs

/-- Decimal value of a digit run. -/
def digitsVal (l : List Char) : Nat := digitsValAux 0 l

/-- Number of `u128` values: `str::parse::<u128>` fails on any value
`≥ 2^128`. -/
def u128Size : Nat := 2 ^ 128

/-- The error cases of `parse`: the regex mismatch (`.context("invalid
semver")`, carrying the input) and `u128` overflow (the `ParseIntError`
propagated by `?` from `caps["major"].parse()` and friends). -/
inductive ParseError where
  | invalidSemver (input : String)
  | intParse
deriving Repr, DecidableEq

/-- Rust's `str::parse::<u128>` applied to a `NUM` capture: `u128::FromStr`
accepts only ASCII digits, so a capture containing a non-ASCII `\p{Nd}`
digit fails (`InvalidDigit`), and an all-ASCII capture fails exactly when
its value reaches `2^128` (`PosOverflow`). -/
def parseU128 (l : List Char) : Option Nat :=
  if l.all Char.isDigit then
    if digitsVal l < u128Size then some (digitsVal l) else none
  else none

/-- The `parse` function (lib.rs lines 129-148): regex capture, then
`u128` conversion of the three numeric captures (any conversion failure is
propagated by `?` as the integer-conversion error), then field assembly. -/
def parse (s : String) : Except ParseError Semver :=
  match capturesOf s.data with
  | none => .error (.invalidSemver s)
  | some c =>
    match parseU128 c.major, parseU128 c.minor, parseU128 c.patch with
    | some major, some minor, some patch =>
      .ok ⟨major, minor, patch,
        c.prerelease.map String.mk, c.buildmetadata.map String.mk⟩
    | _, _, _ => .error .intParse

/-- The ASCII digit character of a value `< 10`. -/
def decChar (n : Nat) : Char := Char.ofNat (48 + n)

/-- Decimal rendering of a `Nat`, most significant digit first, with
explicit fuel (the fuel `n + 1` always suffices). -/
def natToCharsAux : Nat → Nat → List Char
  | 0, _ => []
  | fuel + 1, n =>
    if n < 10 then [decChar n] else natToCharsAux fuel (n / 10) ++ [decChar (n % 10)]

/-- Decimal rendering of a `Nat` (Rust's `Display for u128`). -/
def natToChars (n : Nat) : List Char := natToCharsAux (n + 1) n

/-- Re-rendering of a `Semver` as
`major.minor.patch[-prerelease][+buildmetadata]` (the spec's round-trip
reconstruction: decimal core joined by dots, then the optional suffixes). -/
def render (v : Semver) : String :=
  String.mk (natToChars v.major ++ '.' :: natToChars v.minor ++ '.' :: natToChars v.patch
    ++ (match v.prerelease with | none => [] | some p => '-' :: p.data)
    ++ (match v.buildmetadata with | none => [] | some b => '+' :: b.data))

/-- The input text covered by the two optional capture groups: `-` plus the
prerelease capture when present, then `+` plus the buildmetadata capture
when present. -/
def tailChunk (p b : Option (List Char)) : List Char :=
  (match p with | none => [] | some x => '-' :: x)
    ++ (match b with | none => [] | some x => '+' :: x)

/-- A grammar-conforming input whose `major` is `2^128`, one past the
largest `u128`. -/
def overflowInput : String := "340282366920938463463374607431768211456.0.0"

/-- A grammar-conforming input whose `patch` is `2^128`, prefixed by `v`
after the fact in the claims that need it. -/
def overflowPatchInput : String := "1.0.340282366920938463463374607431768211456"

theorem char_toNat_inj {a b : Char} (h : a.toNat = b.toNat) : a = b := by
  have h2 := congrArg Char.ofNat h
  rwa [Char.ofNat_toNat, Char.ofNat_toNat] at h2

theorem ordThen_eq_eq (o1 o2 : Ordering) : o1.then o2 = .eq ↔ (o1 = .eq ∧ o2 = .eq) := by
  cases o1 <;> simp [Ordering.then]

theorem cmpNat_eq_eq (a b : Nat) : cmpNat a b = .eq ↔ a = b := by
  unfold cmpNat
  split
  · simp; omega
  · split
    · simp; omega
    · simp; omega

theorem cmpChar_eq_eq (a b : Char) : cmpChar a b = .eq ↔ a = b := by
  unfold cmpChar
  split
  · simp
    intro hc
    subst hc
    omega
  · split
    · simp
      intro hc
      subst hc
      omega
    · simp
      exact char_toNat_inj (by omega)

theorem cmpCharList_eq_eq : ∀ l1 l2 : List Char, cmpCharList l1 l2 = .eq ↔ l1 = l2
  | [], [] => by simp [cmpCharList]
  | [], _ :: _ => by simp [cmpCharList]
  | _ :: _, [] => by simp [cmpCharList]
  | a :: l1, b :: l2 => by
    simp only [cmpCharList, ordThen_eq_eq, cmpChar_eq_eq, cmpCharList_eq_eq l1 l2,
      List.cons.injEq]

theorem strCmp_eq_eq (a b : String) : strCmp a b = .eq ↔ a = b := by
  unfold strCmp
  rw [cmpCharList_eq_eq]
  constructor
  · intro h
    cases a
    cases b
    exact congrArg String.mk h
  · intro h
    rw [h]

theorem optStrCmp_eq_some_eq (x y : Option String) : optStrCmp x y = some .eq ↔ x = y := by
  cases x <;> cases y <;> simp [optStrCmp, strCmp_eq_eq]

theorem optStrCmp_self (x : Option String) : optStrCmp x x = some .eq :=
  (optStrCmp_eq_some_eq x x).mpr rfl

theorem cmpTriple_eq_eq (a b : Semver) :
    cmpTriple a b = .eq ↔ (a.major = b.major ∧ a.minor = b.minor ∧ a.patch = b.patch) := by
  unfold cmpTriple
  rw [ordThen_eq_eq, ordThen_eq_eq, cmpNat_eq_eq, cmpNat_eq_eq, cmpNat_eq_eq]

theorem partial_cmp_none_iff (a b : Semver) :
    a.partial_cmp b = none ↔
      (cmpTriple a b = .eq ∧
        (a.prerelease ≠ b.prerelease ∨ a.buildmetadata ≠ b.buildmetadata)) := by
  cases hcmp : cmpTriple a b with
  | lt => simp [Semver.partial_cmp, hcmp]
  | gt => simp [Semver.partial_cmp, hcmp]
  | eq =>
    by_cases hpre : a.prerelease = b.prerelease
    · by_cases hbld : a.buildmetadata = b.buildmetadata
      · simp [Semver.partial_cmp, hcmp, hpre, hbld, optStrCmp_self]
      · have hb2 : optStrCmp a.buildmetadata b.buildmetadata ≠ some .eq :=
          fun hc => hbld ((optStrCmp_eq_some_eq _ _).mp hc)
        rcases hx : optStrCmp a.buildmetadata b.buildmetadata with _ | o
        · simp [Semver.partial_cmp, hcmp, hpre, hbld, optStrCmp_self, hx]
        · cases o <;> simp_all [Semver.partial_cmp, hcmp, hpre, optStrCmp_self, hx]
    · have hp2 : optStrCmp a.prerelease b.prerelease ≠ some .eq :=
        fun hc => hpre ((optStrCmp_eq_some_eq _ _).mp hc)
      rcases hx : optStrCmp a.prerelease b.prerelease with _ | o
      · simp [Semver.partial_cmp, hcmp, hpre, hx]
      · cases o <;> simp_all [Semver.partial_cmp, hcmp, hx]

theorem partial_cmp_none_symm (a b : Semver) (h : a.partial_cmp b = none) :
    b.partial_cmp a = none := by
  rw [partial_cmp_none_iff] at h ⊢
  obtain ⟨he, hd⟩ := h
  rw [cmpTriple_eq_eq] at he
  obtain ⟨e1, e2, e3⟩ := he
  refine ⟨(cmpTriple_eq_eq b a).mpr ⟨e1.symm, e2.symm, e3.symm⟩, ?_⟩
  rcases hd with hd | hd
  · exact Or.inl fun hc => hd hc.symm
  · exact Or.inr fun hc => hd hc.symm

theorem partial_cmp_eq_some_eq_iff (a b : Semver) :
    a.partial_cmp b = some .eq ↔
      (a.major = b.major ∧ a.minor = b.minor ∧ a.patch = b.patch ∧
        a.prerelease = b.prerelease ∧ a.buildmetadata = b.buildmetadata) := by
  cases hcmp : cmpTriple a b with
  | lt =>
    simp only [Semver.partial_cmp, hcmp]
    constructor
    · intro h
      exact absurd h (by simp)
    · rintro ⟨e1, e2, e3, -, -⟩
      have := (cmpTriple_eq_eq a b).mpr ⟨e1, e2, e3⟩
      rw [this] at hcmp
      exact absurd hcmp (by simp)
  | gt =>
    simp only [Semver.partial_cmp, hcmp]
    constructor
    · intro h
      exact absurd h (by simp)
    · rintro ⟨e1, e2, e3, -, -⟩
      have := (cmpTriple_eq_eq a b).mpr ⟨e1, e2, e3⟩
      rw [this] at hcmp
      exact absurd hcmp (by simp)
  | eq =>
    obtain ⟨e1, e2, e3⟩ := (cmpTriple_eq_eq a b).mp hcmp
    by_cases hpre : a.prerelease = b.prerelease
    · by_cases hbld : a.buildmetadata = b.buildmetadata
      · simp [Semver.partial_cmp, hcmp, hpre, hbld, optStrCmp_self, e1, e2, e3]
      · have hb2 : optStrCmp a.buildmetadata b.buildmetadata ≠ some .eq :=
          fun hc => hbld ((optStrCmp_eq_some_eq _ _).mp hc)
        rcases hx : optStrCmp a.buildmetadata b.buildmetadata with _ | o
        · simp [Semver.partial_cmp, hcmp, hpre, optStrCmp_self, hx, hbld]
        · cases o <;> simp_all [Semver.partial_cmp, hcmp, hpre, optStrCmp_self, hx]
    · have hp2 : optStrCmp a.prerelease b.prerelease ≠ some .eq :=
        fun hc => hpre ((optStrCmp_eq_some_eq _ _).mp hc)
      rcases hx : optStrCmp a.prerelease b.prerelease with _ | o
      · simp [Semver.partial_cmp, hcmp, hx, hpre]
      · cases o <;> simp_all [Semver.partial_cmp, hcmp, hx]

theorem isDigit_toNat {c : Char} (h : c.isDigit = true) : 48 ≤ c.toNat ∧ c.toNat ≤ 57 := by
  simp [Char.isDigit] at h
  exact ⟨h.1, h.2⟩

theorem decChar_toNat_sub {c : Char} (h48 : 48 ≤ c.toNat) (h57 : c.toNat ≤ 57) :
    decChar (c.toNat - 48) = c := by
  unfold decChar
  have he : 48 + (c.toNat - 48) = c.toNat := by omega
  rw [he, Char.ofNat_toNat]

theorem isNumStr_cases {isD : Char → Bool} {l : List Char} (h : isNumStr isD l = true) :
    l = ['0'] ∨ ∃ c cs, l = c :: cs ∧ ('1' ≤ c ∧ c ≤ '9') ∧ ∀ x ∈ cs, isD x = true := by
  match l with
  | [] => simp [isNumStr] at h
  | c :: cs =>
    by_cases hc : c = '0'
    · subst hc
      cases cs with
      | nil => exact Or.inl rfl
      | cons a r => simp [isNumStr] at h
    · have h2 : (('1' ≤ c && c ≤ '9') && cs.all isD) = true := by
        simpa [isNumStr, hc] using h
      rw [Bool.and_eq_true, Bool.and_eq_true] at h2
      refine Or.inr ⟨c, cs, rfl, ⟨of_decide_eq_true h2.1.1, of_decide_eq_true h2.1.2⟩, ?_⟩
      intro x hx
      exact List.all_eq_true.mp h2.2 x hx

theorem digitsValAux_append (l : List Char) (d : Char) :
    ∀ a, digitsValAux a (l ++ [d]) = 10 * digitsValAux a l + (d.toNat - 48) := by
  induction l with
  | nil => intro a; rfl
  | cons c cs ih =>
    intro a
    show digitsValAux (10 * a + (c.toNat - 48)) (cs ++ [d])
        = 10 * digitsValAux (10 * a + (c.toNat - 48)) cs + (d.toNat - 48)
    exact ih _

theorem digitsValAux_ge (l : List Char) : ∀ a, a ≤ digitsValAux a l := by
  induction l with
  | nil => intro a; exact Nat.le_of_eq rfl
  | cons c cs ih =>
    intro a
    show a ≤ digitsValAux (10 * a + (c.toNat - 48)) cs
    exact le_trans (by omega) (ih (10 * a + (c.toNat - 48)))

theorem natToCharsAux_irrel (f1 : Nat) :
    ∀ f2 n, n < f1 → n < f2 → natToCharsAux f1 n = natToCharsAux f2 n := by
  induction f1 with
  | zero => intro f2 n h1 _; exact absurd h1 (Nat.not_lt_zero n)
  | succ g ih =>
    intro f2 n h1 h2
    cases f2 with
    | zero => exact absurd h2 (Nat.not_lt_zero n)
    | succ g2 =>
      simp only [natToCharsAux]
      by_cases h10 : n < 10
      · simp [h10]
      · simp only [h10, if_false]
        exact congrArg (· ++ [decChar (n % 10)]) (ih g2 (n / 10) (by omega) (by omega))

theorem natToChars_lt10 {n : Nat} (h : n < 10) : natToChars n = [decChar n] := by
  unfold natToChars
  simp [natToCharsAux, h]

theorem natToChars_ge10 {n : Nat} (h : 10 ≤ n) :
    natToChars n = natToChars (n / 10) ++ [decChar (n % 10)] := by
  unfold natToChars
  have h1 : natToCharsAux (n + 1) n = natToCharsAux n (n / 10) ++ [decChar (n % 10)] := by
    simp [natToCharsAux, Nat.not_lt.mpr h]
  rw [h1, natToCharsAux_irrel n (n / 10 + 1) (n / 10) (by omega) (by omega)]

theorem natToChars_digitsVal_cons (c : Char) (hc1 : '1' ≤ c) (hc9 : c ≤ '9')
    (cs : List Char) :
    (∀ x ∈ cs, x.isDigit = true) → natToChars (digitsVal (c :: cs)) = c :: cs := by
  have h49 : 49 ≤ c.toNat := hc1
  have h57 : c.toNat ≤ 57 := hc9
  induction cs using List.reverseRecOn with
  | nil =>
    intro _
    have hv : digitsVal [c] = c.toNat - 48 := by
      show 10 * 0 + (c.toNat - 48) = c.toNat - 48
      omega
    rw [hv, natToChars_lt10 (by omega), decChar_toNat_sub (by omega) (by omega)]
  | append_singleton cs d ih =>
    intro hall
    have hd : d.isDigit = true := hall d (by simp)
    have hcs : ∀ x ∈ cs, x.isDigit = true := fun x hx => hall x (by simp [hx])
    obtain ⟨hd1, hd2⟩ := isDigit_toNat hd
    have he : digitsVal (c :: (cs ++ [d])) = 10 * digitsVal (c :: cs) + (d.toNat - 48) :=
      digitsValAux_append (c :: cs) d 0
    have hpos : 1 ≤ digitsVal (c :: cs) := by
      have hge := digitsValAux_ge cs (10 * 0 + (c.toNat - 48))
      have hdef : digitsVal (c :: cs) = digitsValAux (10 * 0 + (c.toNat - 48)) cs := rfl
      omega
    have hdiv : (10 * digitsVal (c :: cs) + (d.toNat - 48)) / 10 = digitsVal (c :: cs) := by
      rw [Nat.mul_add_div (by omega)]
      omega
    have hmod : (10 * digitsVal (c :: cs) + (d.toNat - 48)) % 10 = d.toNat - 48 := by
      rw [Nat.mul_add_mod]
      omega
    rw [he, natToChars_ge10 (by omega), hdiv, hmod, ih hcs,
      decChar_toNat_sub (by omega) (by omega)]
    simp

theorem natToChars_isNumStr {isD : Char → Bool} {l : List Char}
    (h : isNumStr isD l = true) (ha : l.all Char.isDigit = true) :
    natToChars (digitsVal l) = l := by
  rcases isNumStr_cases h with h0 | ⟨c, cs, rfl, ⟨hc1, hc9⟩, -⟩
  · rw [h0]
    decide
  · refine natToChars_digitsVal_cons c hc1 hc9 cs ?_
    intro x hx
    exact List.all_eq_true.mp ha x (List.mem_cons_of_mem c hx)

theorem scanNum_sound {isD : Char → Bool} {l ds r : List Char}
    (h : scanNum isD l = some (ds, r)) :
    l = ds ++ r ∧ isNumStr isD ds = true := by
  simp only [scanNum] at h
  split at h
  · rename_i hn
    rw [Option.some.injEq, Prod.mk.injEq] at h
    obtain ⟨rfl, rfl⟩ := h
    exact ⟨(List.takeWhile_append_dropWhile isD l).symm, hn⟩
  · exact absurd h (by simp)

theorem expectDot_sound {l r : List Char} (h : expectDot l = some r) : l = '.' :: r := by
  match l with
  | [] => simp [expectDot] at h
  | c :: r2 =>
    simp only [expectDot] at h
    split at h
    · rename_i hc
      rw [Option.some.injEq] at h
      rw [hc, h]
    · exact absurd h (by simp)

theorem scanTail_sound {isD : Char → Bool} {l : List Char} {p b : Option (List Char)}
    (h : scanTail isD l = some (p, b)) : l = tailChunk p b := by
  match l with
  | [] =>
    simp only [scanTail, Option.some.injEq, Prod.mk.injEq] at h
    obtain ⟨rfl, rfl⟩ := h
    rfl
  | c :: r =>
    simp only [scanTail] at h
    split at h
    · rename_i hc
      split at h
      · rename_i hpre
        split at h
        · rename_i hdrop
          rw [Option.some.injEq, Prod.mk.injEq] at h
          obtain ⟨rfl, rfl⟩ := h
          have hr : r.takeWhile (fun x => x != '+') ++ r.dropWhile (fun x => x != '+') = r :=
            List.takeWhile_append_dropWhile _ _
          rw [hdrop, List.append_nil] at hr
          rw [hc]
          simp only [tailChunk, List.append_nil, List.cons.injEq, true_and]
          exact hr.symm
        · rename_i c2 b2 hdrop
          split at h
          · rename_i hc2
            split at h
            · rw [Option.some.injEq, Prod.mk.injEq] at h
              obtain ⟨rfl, rfl⟩ := h
              have hr : r.takeWhile (fun x => x != '+') ++ r.dropWhile (fun x => x != '+') = r :=
                List.takeWhile_append_dropWhile _ _
              rw [hdrop, hc2] at hr
              rw [hc]
              simp only [tailChunk, List.cons_append, List.cons.injEq, true_and]
              exact hr.symm
            · exact absurd h (by simp)
          · exact absurd h (by simp)
      · exact absurd h (by simp)
    · split at h
      · rename_i hc
        split at h
        · rw [Option.some.injEq, Prod.mk.injEq] at h
          obtain ⟨rfl, rfl⟩ := h
          rw [hc]
          rfl
        · exact absurd h (by simp)
      · exact absurd h (by simp)

theorem scanVersion_sound {isD : Char → Bool} {l : List Char} {c : Caps}
    (h : scanVersion isD l = some c) :
    l = c.major ++ '.' :: c.minor ++ '.' :: c.patch
        ++ tailChunk c.prerelease c.buildmetadata
      ∧ isNumStr isD c.major = true ∧ isNumStr isD c.minor = true
      ∧ isNumStr isD c.patch = true := by
  unfold scanVersion at h
  rw [Option.bind_eq_some] at h
  obtain ⟨m1, hm1, h⟩ := h
  rw [Option.bind_eq_some] at h
  obtain ⟨r2, hr2, h⟩ := h
  rw [Option.bind_eq_some] at h
  obtain ⟨m2, hm2, h⟩ := h
  rw [Option.bind_eq_some] at h
  obtain ⟨r3, hr3, h⟩ := h
  rw [Option.bind_eq_some] at h
  obtain ⟨m3, hm3, h⟩ := h
  rw [Option.map_eq_some'] at h
  obtain ⟨t, ht, rfl⟩ := h
  obtain ⟨he1, hn1⟩ := scanNum_sound hm1
  obtain ⟨he2, hn2⟩ := scanNum_sound hm2
  obtain ⟨he3, hn3⟩ := scanNum_sound hm3
  have hd1 := expectDot_sound hr2
  have hd2 := expectDot_sound hr3
  have ht2 : m3.2 = tailChunk t.1 t.2 := scanTail_sound (by rw [ht])
  refine ⟨?_, hn1, hn2, hn3⟩
  rw [he1, hd1, he2, hd2, he3, ht2]
  simp

theorem parseU128_eq_some {l : List Char} (ha : l.all Char.isDigit = true)
    (hb : digitsVal l < u128Size) : parseU128 l = some (digitsVal l) := by
  unfold parseU128
  rw [if_pos ha, if_pos hb]

theorem isDigit_of_toNat {c : Char} (h48 : 48 ≤ c.toNat) (h57 : c.toNat ≤ 57) :
    c.isDigit = true := by
  simp [Char.isDigit]
  exact ⟨h48, h57⟩

theorem isNdDigit_of_ascii {c : Char} (h : c.toNat < 128) :
    isNdDigit c = c.isDigit := by
  rw [Bool.eq_iff_iff]
  constructor
  · intro hnd
    simp only [isNdDigit, inRange, Bool.or_eq_true, Bool.and_eq_true,
      decide_eq_true_eq] at hnd
    exact isDigit_of_toNat (by omega) (by omega)
  · intro hd
    obtain ⟨h1, h2⟩ := isDigit_toNat hd
    simp only [isNdDigit, inRange, Bool.or_eq_true, Bool.and_eq_true,
      decide_eq_true_eq]
    omega

theorem takeWhile_congr {α : Type} {p q : α → Bool} :
    ∀ {l : List α}, (∀ a ∈ l, p a = q a) → l.takeWhile p = l.takeWhile q := by
  intro l
  induction l with
  | nil => intro _; rfl
  | cons c cs ih =>
    intro h
    rw [List.takeWhile_cons, List.takeWhile_cons, h c (by simp)]
    cases hq : q c <;>
      simp [hq, ih (fun a ha => h a (List.mem_cons_of_mem c ha))]

theorem dropWhile_congr {α : Type} {p q : α → Bool} :
    ∀ {l : List α}, (∀ a ∈ l, p a = q a) → l.dropWhile p = l.dropWhile q := by
  intro l
  induction l with
  | nil => intro _; rfl
  | cons c cs ih =>
    intro h
    rw [List.dropWhile_cons, List.dropWhile_cons, h c (by simp)]
    cases hq : q c <;>
      simp [hq, ih (fun a ha => h a (List.mem_cons_of_mem c ha))]

theorem all_congr {α : Type} {p q : α → Bool} :
    ∀ {l : List α}, (∀ a ∈ l, p a = q a) → l.all p = l.all q := by
  intro l
  induction l with
  | nil => intro _; rfl
  | cons c cs ih =>
    intro h
    rw [List.all_cons, List.all_cons, h c (by simp),
      ih (fun a ha => h a (List.mem_cons_of_mem c ha))]

theorem isNumStr_congr {p q : Char → Bool} {l : List Char}
    (h : ∀ ch ∈ l, p ch = q ch) : isNumStr p l = isNumStr q l := by
  cases l with
  | nil => rfl
  | cons c cs =>
    simp only [isNumStr]
    rw [all_congr (fun a ha => h a (List.mem_cons_of_mem c ha))]

theorem isLooseIdent_congr {p q : Char → Bool} :
    ∀ {l : List Char}, (∀ ch ∈ l, p ch = q ch) →
      isLooseIdent p l = isLooseIdent q l := by
  intro l
  induction l with
  | nil => intro _; rfl
  | cons c cs ih =>
    intro h
    simp only [isLooseIdent]
    rw [h c (by simp)]
    cases hq : q c <;>
      simp [hq, ih (fun a ha => h a (List.mem_cons_of_mem c ha))]

theorem isPreIdent_congr {p q : Char → Bool} {l : List Char}
    (h : ∀ ch ∈ l, p ch = q ch) : isPreIdent p l = isPreIdent q l := by
  unfold isPreIdent
  rw [isNumStr_congr h, isLooseIdent_congr h]

theorem splitDots_ne_nil (l : List Char) : splitDots l ≠ [] := by
  cases l with
  | nil => simp [splitDots]
  | cons c r =>
    simp only [splitDots]
    by_cases hc : c = '.'
    · simp [hc]
    · rw [if_neg hc]
      cases hs : splitDots r <;> simp

theorem splitDots_mem : ∀ {l : List Char} {g : List Char}, g ∈ splitDots l →
    ∀ {ch : Char}, ch ∈ g → ch ∈ l := by
  intro l
  induction l with
  | nil =>
    intro g hg ch hch
    simp [splitDots] at hg
    subst hg
    simp at hch
  | cons c r ih =>
    intro g hg ch hch
    by_cases hc : c = '.'
    · rw [show splitDots (c :: r) = [] :: splitDots r from by
        simp [splitDots, hc]] at hg
      rcases List.mem_cons.mp hg with rfl | hg2
      · simp at hch
      · exact List.mem_cons_of_mem c (ih hg2 hch)
    · simp only [splitDots] at hg
      rw [if_neg hc] at hg
      rcases hs : splitDots r with _ | ⟨g0, gs⟩
      · exact absurd hs (splitDots_ne_nil r)
      · rw [hs] at hg
        have hg2 : g ∈ (c :: g0) :: gs := hg
        rcases List.mem_cons.mp hg2 with rfl | hg3
        · rcases List.mem_cons.mp hch with rfl | hch2
          · exact List.mem_cons_self ch r
          · refine List.mem_cons_of_mem c (ih ?_ hch2)
            rw [hs]
            exact List.mem_cons_self g0 gs
        · refine List.mem_cons_of_mem c (ih ?_ hch)
          rw [hs]
          exact List.mem_cons_of_mem g0 hg3

theorem isPrereleaseStr_congr {p q : Char → Bool} {l : List Char}
    (h : ∀ ch ∈ l, p ch = q ch) : isPrereleaseStr p l = isPrereleaseStr q l := by
  unfold isPrereleaseStr
  exact all_congr (fun g hg =>
    isPreIdent_congr (fun ch hch => h ch (splitDots_mem hg hch)))

theorem scanNum_congr {p q : Char → Bool} {l : List Char}
    (h : ∀ ch ∈ l, p ch = q ch) : scanNum p l = scanNum q l := by
  simp only [scanNum]
  rw [takeWhile_congr h, dropWhile_congr h,
    isNumStr_congr (fun ch hch => h ch (List.takeWhile_subset _ hch))]

theorem scanTail_congr {p q : Char → Bool} {l : List Char}
    (h : ∀ ch ∈ l, p ch = q ch) : scanTail p l = scanTail q l := by
  cases l with
  | nil => rfl
  | cons c r =>
    simp only [scanTail]
    by_cases hc : c = '-'
    · rw [if_pos hc, if_pos hc,
        isPrereleaseStr_congr (fun ch hch => h ch
          (List.mem_cons_of_mem c (List.takeWhile_subset _ hch)))]
    · rw [if_neg hc, if_neg hc]

theorem scanVersion_congr {p q : Char → Bool} {l : List Char}
    (h : ∀ ch ∈ l, p ch = q ch) : scanVersion p l = scanVersion q l := by
  unfold scanVersion
  rw [scanNum_congr h]
  cases hm1 : scanNum q l with
  | none => rfl
  | some m1 =>
    obtain ⟨hd1, -⟩ := scanNum_sound hm1
    have h1 : ∀ ch ∈ m1.2, p ch = q ch := fun ch hch =>
      h ch (by rw [hd1]; exact List.mem_append_right _ hch)
    simp only [Option.some_bind]
    cases hr2 : expectDot m1.2 with
    | none => rfl
    | some r2 =>
      have hd2 := expectDot_sound hr2
      have h2 : ∀ ch ∈ r2, p ch = q ch := fun ch hch =>
        h1 ch (by rw [hd2]; exact List.mem_cons_of_mem _ hch)
      simp only [Option.some_bind]
      rw [scanNum_congr h2]
      cases hm2 : scanNum q r2 with
      | none => rfl
      | some m2 =>
        obtain ⟨hd3, -⟩ := scanNum_sound hm2
        have h3 : ∀ ch ∈ m2.2, p ch = q ch := fun ch hch =>
          h2 ch (by rw [hd3]; exact List.mem_append_right _ hch)
        simp only [Option.some_bind]
        cases hr3 : expectDot m2.2 with
        | none => rfl
        | some r3 =>
          have hd4 := expectDot_sound hr3
          have h4 : ∀ ch ∈ r3, p ch = q ch := fun ch hch =>
            h3 ch (by rw [hd4]; exact List.mem_cons_of_mem _ hch)
          simp only [Option.some_bind]
          rw [scanNum_congr h4]
          cases hm3 : scanNum q r3 with
          | none => rfl
          | some m3 =>
            obtain ⟨hd5, -⟩ := scanNum_sound hm3
            have h5 : ∀ ch ∈ m3.2, p ch = q ch := fun ch hch =>
              h4 ch (by rw [hd5]; exact List.mem_append_right _ hch)
            simp only [Option.some_bind]
            rw [scanTail_congr h5]

theorem stripV_mem {l : List Char} {ch : Char} (h : ch ∈ stripV l) : ch ∈ l := by
  cases l with
  | nil => simp [stripV] at h
  | cons c r =>
    simp only [stripV] at h
    split at h
    · exact List.mem_cons_of_mem c h
    · exact h

theorem specCaptures_eq_capturesOf {l : List Char}
    (hA : ∀ ch ∈ l, ch.toNat < 128) : specCaptures l = capturesOf l := by
  unfold specCaptures capturesOf
  exact scanVersion_congr (fun ch hch =>
    (isNdDigit_of_ascii (hA ch (stripV_mem hch))).symm)

/-- C2: `compare` (the `PartialOrd` impl) never fails — it is a total
function into `Option Ordering` — and it returns `none` (not comparable)
exactly when the `(major, minor, patch)` triples are equal but the
`prerelease` texts differ or the `buildmetadata` texts differ. -/
theorem c2_compare_none_iff (a b : Semver) :
    a.partial_cmp b = none ↔
      ((a.major = b.major ∧ a.minor = b.minor ∧ a.patch = b.patch) ∧
        (a.prerelease ≠ b.prerelease ∨ a.buildmetadata ≠ b.buildmetadata)) := by
  rw [partial_cmp_none_iff, cmpTriple_eq_eq]

/-- C3 counterexample: with equal core triples and otherwise equal
metadata, comparing a version without prerelease against one with a
prerelease yields `none` (not comparable), not `some .gt`:
`compare(1.0.0, 1.0.0-alpha)` is not `Greater`. -/
theorem c3_counterexample :
    Semver.partial_cmp ⟨1, 0, 0, none, none⟩ ⟨1, 0, 0, some "alpha", none⟩ ≠
        some Ordering.gt ∧
      Semver.partial_cmp ⟨1, 0, 0, none, none⟩ ⟨1, 0, 0, some "alpha", none⟩ = none := by
  decide

/-- C3 (amended): with equal core triples, a version without a prerelease
and one with a prerelease are not comparable — `compare` returns `none`,
whatever the buildmetadata fields are. -/
theorem c3_absent_present_not_comparable (a b : Semver) (p : String)
    (h1 : a.major = b.major) (h2 : a.minor = b.minor) (h3 : a.patch = b.patch)
    (h4 : a.prerelease = none) (h5 : b.prerelease = some p) :
    a.partial_cmp b = none := by
  rw [partial_cmp_none_iff]
  refine ⟨(cmpTriple_eq_eq a b).mpr ⟨h1, h2, h3⟩, Or.inl ?_⟩
  rw [h4, h5]
  simp

/-- C3 witness: the amended claim evaluated at `1.0.0` versus
`1.0.0-beta`. -/
theorem c3_witness :
    Semver.partial_cmp ⟨1, 0, 0, none, none⟩ ⟨1, 0, 0, some "beta", none⟩ = none :=
  c3_absent_present_not_comparable ⟨1, 0, 0, none, none⟩ ⟨1, 0, 0, some "beta", none⟩
    "beta" rfl rfl rfl rfl rfl

/-- C4: when the core triples differ, `compare` returns `some` of the
lexicographic unsigned-integer ordering of the triples, for any prerelease
and buildmetadata fields on either side. -/
theorem c4_triple_decides (a b : Semver)
    (h : ¬ (a.major = b.major ∧ a.minor = b.minor ∧ a.patch = b.patch)) :
    ∀ p q p2 q2 : Option String,
      Semver.partial_cmp { a with prerelease := p, buildmetadata := q }
          { b with prerelease := p2, buildmetadata := q2 } = some (cmpTriple a b) := by
  intro p q p2 q2
  have ht : cmpTriple { a with prerelease := p, buildmetadata := q }
      { b with prerelease := p2, buildmetadata := q2 } = cmpTriple a b := rfl
  have hne : cmpTriple a b ≠ .eq := fun hcmp => h ((cmpTriple_eq_eq a b).mp hcmp)
  cases hcmp : cmpTriple a b with
  | eq => exact absurd hcmp hne
  | lt => simp [Semver.partial_cmp, ht, hcmp]
  | gt => simp [Semver.partial_cmp, ht, hcmp]

/-- C4 witness: `1.2.3-a+m` versus `1.2.4-z` (differing core triples,
assorted metadata). -/
theorem c4_witness :
    Semver.partial_cmp ⟨1, 2, 3, some "a", some "m"⟩ ⟨1, 2, 4, some "z", none⟩ =
      some (cmpTriple ⟨1, 2, 3, none, none⟩ ⟨1, 2, 4, none, none⟩) :=
  c4_triple_decides ⟨1, 2, 3, none, none⟩ ⟨1, 2, 4, none, none⟩ (by decide)
    (some "a") (some "m") (some "z") none

/-- C5: `==` on `Semver` holds iff major, minor, patch, the prerelease
texts (including both absent) and the buildmetadata texts (including both
absent) all agree; equal cores with different build metadata are unequal. -/
theorem c5_eq_iff_fields (a b : Semver) :
    Semver.eq a b = true ↔
      (a.major = b.major ∧ a.minor = b.minor ∧ a.patch = b.patch ∧
        a.prerelease = b.prerelease ∧ a.buildmetadata = b.buildmetadata) := by
  simp [Semver.eq, Bool.and_eq_true, beq_iff_eq, and_assoc]

/-- C7: `is_comparable_with` is symmetric. -/
theorem c7_is_comparable_with_symm (a b : Semver) :
    a.is_comparable_with b = b.is_comparable_with a := by
  unfold Semver.is_comparable_with
  by_cases h : a.partial_cmp b = none
  · rw [h, partial_cmp_none_symm a b h]
  · have h2 : ¬ b.partial_cmp a = none := fun hc => h (partial_cmp_none_symm b a hc)
    rcases ho : a.partial_cmp b with _ | o1
    · exact absurd ho h
    · rcases ho2 : b.partial_cmp a with _ | o2
      · exact absurd ho2 h2
      · rfl

/-- C9: `compare` returns `some .eq` exactly when the two versions are
equal under the five-field structural equality. -/
theorem c9_equal_iff_eq (a b : Semver) :
    a.partial_cmp b = some Ordering.eq ↔ Semver.eq a b = true := by
  rw [partial_cmp_eq_some_eq_iff]
  simp [Semver.eq, Bool.and_eq_true, beq_iff_eq, and_assoc]

/-- C6 counterexample: `1.2.3-\u0663x` (where `U+0663` is the Arabic-Indic
digit three, a Unicode decimal digit outside the spec's ASCII identifier
alphabet) violates the spec's grammar, yet the regex's Unicode-aware `\d`
accepts it and `parse` succeeds; and `1\u0663.2.3` also violates the
spec's grammar, yet `parse` fails with the integer-conversion error, not
the `invalid semver` error. -/
theorem c6_counterexample :
    specCaptures "1.2.3-\u0663x".data = none ∧
      parse "1.2.3-\u0663x" = .ok ⟨1, 2, 3, some "\u0663x", none⟩ ∧
      specCaptures "1\u0663.2.3".data = none ∧
      parse "1\u0663.2.3" = .error .intParse :=
  ⟨rfl, rfl, rfl, rfl⟩

/-- C6 (amended): every input the program's regex `RE` rejects makes
`parse` fail with the `invalid semver` error carrying the original input,
with no partial result; and on all-ASCII inputs rejection by `RE`
coincides with violating the spec's grammar (the two grammars differ only
on non-ASCII `\p{Nd}` digits), so every all-ASCII input violating the
spec's grammar — wrong segment count, leading zero, missing core, empty
identifier, disallowed ASCII character, trailing text — fails with exactly
the `invalid semver` error. -/
theorem c6_rejected_invalid_semver :
    (∀ s : String, capturesOf s.data = none → parse s = .error (.invalidSemver s)) ∧
      ∀ s : String, (∀ ch ∈ s.data, ch.toNat < 128) → specCaptures s.data = none →
        parse s = .error (.invalidSemver s) := by
  constructor
  · intro s h
    unfold parse
    rw [h]
  · intro s hA h
    unfold parse
    rw [← specCaptures_eq_capturesOf hA, h]

/-- C6 witness: the wrong-segment-count input `1` through the regex
branch, and the leading-zero input `01.1.1` through the all-ASCII
spec-grammar branch. -/
theorem c6_witness :
    parse "1" = .error (.invalidSemver "1") ∧
      parse "01.1.1" = .error (.invalidSemver "01.1.1") :=
  ⟨c6_rejected_invalid_semver.1 "1" rfl,
    c6_rejected_invalid_semver.2 "01.1.1" (by decide) rfl⟩

/-- C1 counterexample: `340282366920938463463374607431768211456.0.0`
(major exactly `2^128`) fully matches the semver grammar, yet `parse`
fails with the `u128` conversion error instead of succeeding, so `parse`
does not succeed on every grammar-conforming input with components beyond
128 bits. -/
theorem c1_counterexample :
    (capturesOf overflowInput.data).isSome = true ∧
      parse overflowInput = .error .intParse :=
  ⟨rfl, rfl⟩

/-- C1 (amended): every input fully matching the semver grammar whose
three numeric captures are ASCII digit runs with values below `2^128`
parses successfully, and re-rendering the parsed value as
`major.minor.patch[-prerelease][+buildmetadata]` gives back the input with
any leading `v` stripped. Spec-grammar inputs always have ASCII captures;
a component `≥ 2^128` (see the counterexample) or with a non-ASCII
`\p{Nd}` digit is instead rejected by the `u128` conversion. -/
theorem c1_roundtrip (s : String) (c : Caps)
    (h : capturesOf s.data = some c)
    (ha1 : c.major.all Char.isDigit = true) (ha2 : c.minor.all Char.isDigit = true)
    (ha3 : c.patch.all Char.isDigit = true)
    (h1 : digitsVal c.major < u128Size) (h2 : digitsVal c.minor < u128Size)
    (h3 : digitsVal c.patch < u128Size) :
    ∃ v, parse s = .ok v ∧ render v = String.mk (stripV s.data) := by
  refine ⟨⟨digitsVal c.major, digitsVal c.minor, digitsVal c.patch,
    c.prerelease.map String.mk, c.buildmetadata.map String.mk⟩, ?_, ?_⟩
  · unfold parse
    rw [h]
    simp only [parseU128_eq_some ha1 h1, parseU128_eq_some ha2 h2,
      parseU128_eq_some ha3 h3]
  · have hs : scanVersion isNdDigit (stripV s.data) = some c := h
    obtain ⟨hdec, hn1, hn2, hn3⟩ := scanVersion_sound hs
    rw [hdec]
    simp only [render]
    rw [natToChars_isNumStr hn1 ha1, natToChars_isNumStr hn2 ha2,
      natToChars_isNumStr hn3 ha3]
    rcases c.prerelease with _ | xp <;> rcases c.buildmetadata with _ | xb <;>
      simp [tailChunk]

/-- C1 witness: the round-trip at `v1.2.3-alpha.1+build.2`. -/
theorem c1_witness :
    ∃ v, parse "v1.2.3-alpha.1+build.2" = .ok v ∧
      render v = String.mk (stripV "v1.2.3-alpha.1+build.2".data) :=
  c1_roundtrip "v1.2.3-alpha.1+build.2"
    ⟨"1".data, "2".data, "3".data, some "alpha.1".data, some "build.2".data⟩
    (by decide) (by decide) (by decide) (by decide) (by decide) (by decide) (by decide)

/-- C8 counterexample: `1.0.340282366920938463463374607431768211456`
matches the grammar and does not start with `v`, yet prepending `v` (like
the bare input itself) fails with the `u128` conversion error instead of
succeeding, so the claim's success assertion does not hold on every
grammar-conforming input. -/
theorem c8_counterexample :
    (capturesOf overflowPatchInput.data).isSome = true ∧
      overflowPatchInput.data.head? ≠ some 'v' ∧
      parse ("v" ++ overflowPatchInput) = .error .intParse :=
  ⟨rfl, by decide, rfl⟩

/-- C8 (amended): for every input that matches the grammar without a
leading `v` and whose numeric captures are ASCII digit runs fitting in
`u128` (as every spec-grammar input's captures are), parsing with a
prepended `v` succeeds and yields exactly the Version that parsing the
bare input yields (in all five fields); on inputs whose captures fail the
`u128` conversion both parses fail alike (see the counterexample). -/
theorem c8_v_prepend (s : String) (c : Caps)
    (h0 : s.data.head? ≠ some 'v')
    (h : capturesOf s.data = some c)
    (ha1 : c.major.all Char.isDigit = true) (ha2 : c.minor.all Char.isDigit = true)
    (ha3 : c.patch.all Char.isDigit = true)
    (h1 : digitsVal c.major < u128Size) (h2 : digitsVal c.minor < u128Size)
    (h3 : digitsVal c.patch < u128Size) :
    ∃ v, parse ("v" ++ s) = .ok v ∧ parse s = .ok v := by
  have hdata : ("v" ++ s).data = 'v' :: s.data := by
    rw [String.data_append]
    rfl
  have hstrip2 : stripV s.data = s.data := by
    cases hd : s.data with
    | nil => rfl
    | cons a r =>
      have ha : ¬ a = 'v' := by
        intro hv
        apply h0
        rw [hd, hv]
        rfl
      simp [stripV, ha]
  have hcap2 : capturesOf ('v' :: s.data) = some c := by
    show scanVersion isNdDigit (stripV ('v' :: s.data)) = some c
    rw [show stripV ('v' :: s.data) = s.data from rfl, ← hstrip2]
    exact h
  refine ⟨⟨digitsVal c.major, digitsVal c.minor, digitsVal c.patch,
    c.prerelease.map String.mk, c.buildmetadata.map String.mk⟩, ?_, ?_⟩
  · unfold parse
    rw [hdata, hcap2]
    simp only [parseU128_eq_some ha1 h1, parseU128_eq_some ha2 h2,
      parseU128_eq_some ha3 h3]
  · unfold parse
    rw [h]
    simp only [parseU128_eq_some ha1 h1, parseU128_eq_some ha2 h2,
      parseU128_eq_some ha3 h3]

/-- C8 witness: `v9.8.7-rc.1+build.5` parses to the same Version as
`9.8.7-rc.1+build.5`. -/
theorem c8_witness :
    ∃ v, parse ("v" ++ "9.8.7-rc.1+build.5") = .ok v ∧
      parse "9.8.7-rc.1+build.5" = .ok v :=
  c8_v_prepend "9.8.7-rc.1+build.5"
    ⟨"9".data, "8".data, "7".data, some "rc.1".data, some "build.5".data⟩
    (by decide) (by decide) (by decide) (by decide) (by decide) (by decide)
    (by decide) (by decide)

/-- C10: only a lowercase `v` is accepted as prefix: for every string `s`,
parsing `V` prepended to `s` fails with the `invalid semver` error (`V` is
not stripped and is not a digit, so the `major` capture fails), in
particular on `V1.2.3`, while `v1.2.3` parses successfully. -/
theorem c10_upper_v_rejected :
    (∀ s : String, parse ("V" ++ s) = .error (.invalidSemver ("V" ++ s))) ∧
      parse "V1.2.3" = .error (.invalidSemver "V1.2.3") ∧
      (∃ v, parse "v1.2.3" = .ok v) := by
  refine ⟨?_, rfl, ⟨_, rfl⟩⟩
  intro s
  have hdata : ("V" ++ s).data = 'V' :: s.data := by
    rw [String.data_append]
    rfl
  have hcap : capturesOf ('V' :: s.data) = none := rfl
  unfold parse
  rw [hdata, hcap]

/-!
Test battery: the embedding reproduces every vector of the repository's
`#[cfg(test)]` suite (`test_valid_parse`, `test_invalid_parse`,
`test_parse`, `test_prefix_parse`, `test_meta_parse`). -/

example : ∃ v, parse "0.0.4" = .ok v := ⟨_, rfl⟩
example : ∃ v, parse "1.2.3" = .ok v := ⟨_, rfl⟩
example : ∃ v, parse "10.20.30" = .ok v := ⟨_, rfl⟩
example : ∃ v, parse "1.1.2-prerelease+meta" = .ok v := ⟨_, rfl⟩
example : ∃ v, parse "1.1.2+meta" = .ok v := ⟨_, rfl⟩
example : ∃ v, parse "1.1.2+meta-valid" = .ok v := ⟨_, rfl⟩
example : ∃ v, parse "1.0.0-alpha" = .ok v := ⟨_, rfl⟩
example : ∃ v, parse "1.0.0-beta" = .ok v := ⟨_, rfl⟩
example : ∃ v, parse "1.0.0-alpha.beta" = .ok v := ⟨_, rfl⟩
example : ∃ v, parse "1.0.0-alpha.beta.1" = .ok v := ⟨_, rfl⟩
example : ∃ v, parse "1.0.0-alpha.1" = .ok v := ⟨_, rfl⟩
example : ∃ v, parse "1.0.0-alpha0.valid" = .ok v := ⟨_, rfl⟩
example : ∃ v, parse "1.0.0-alpha.0valid" = .ok v := ⟨_, rfl⟩
example : ∃ v, parse "1.0.0-alpha-a.b-c-somethinglong+build.1-aef.1-its-okay" = .ok v :=
  ⟨_, rfl⟩
example : ∃ v, parse "1.0.0-rc.1+build.1" = .ok v := ⟨_, rfl⟩
example : ∃ v, parse "2.0.0-rc.1+build.123" = .ok v := ⟨_, rfl⟩
example : ∃ v, parse "1.2.3-beta" = .ok v := ⟨_, rfl⟩
example : ∃ v, parse "10.2.3-DEV-SNAPSHOT" = .ok v := ⟨_, rfl⟩
example : ∃ v, parse "1.2.3-SNAPSHOT-123" = .ok v := ⟨_, rfl⟩
example : ∃ v, parse "1.0.0" = .ok v := ⟨_, rfl⟩
example : ∃ v, parse "2.0.0" = .ok v := ⟨_, rfl⟩
example : ∃ v, parse "1.1.7" = .ok v := ⟨_, rfl⟩
example : ∃ v, parse "2.0.0+build.1848" = .ok v := ⟨_, rfl⟩
example : ∃ v, parse "2.0.1-alpha.1227" = .ok v := ⟨_, rfl⟩
example : ∃ v, parse "1.0.0-alpha+beta" = .ok v := ⟨_, rfl⟩
example : ∃ v, parse "1.2.3----RC-SNAPSHOT.12.9.1--.12+788" = .ok v := ⟨_, rfl⟩
example : ∃ v, parse "1.2.3----R-S.12.9.1--.12+meta" = .ok v := ⟨_, rfl⟩
example : ∃ v, parse "1.2.3----RC-SNAPSHOT.12.9.1--.12" = .ok v := ⟨_, rfl⟩
example : ∃ v, parse "1.0.0+0.build.1-rc.10000aaa-kk-0.1" = .ok v := ⟨_, rfl⟩
example : ∃ v, parse "99999999999999999999999.999999999999999999.99999999999999999" = .ok v :=
  ⟨_, rfl⟩
example : ∃ v, parse "1.0.0-0A.is.legal" = .ok v := ⟨_, rfl⟩
example : ∃ v, parse "v1.2.3" = .ok v := ⟨_, rfl⟩
example : parse "v1.2.3-alpha+meta" = .ok ⟨1, 2, 3, some "alpha", some "meta"⟩ := rfl
example : parse "1.2.3-alpha+meta" = .ok ⟨1, 2, 3, some "alpha", some "meta"⟩ := rfl
example : parse "1.2.3" = .ok ⟨1, 2, 3, none, none⟩ := rfl
example : parse "v1.2.3" = .ok ⟨1, 2, 3, none, none⟩ := rfl

example : parse "1" = .error (.invalidSemver "1") := rfl
example : parse "1.2" = .error (.invalidSemver "1.2") := rfl
example : parse "1.2.3-0123" = .error (.invalidSemver "1.2.3-0123") := rfl
example : parse "1.2.3-0123.0123" = .error (.invalidSemver "1.2.3-0123.0123") := rfl
example : parse "1.1.2+.123" = .error (.invalidSemver "1.1.2+.123") := rfl
example : parse "+invalid" = .error (.invalidSemver "+invalid") := rfl
example : parse "-invalid" = .error (.invalidSemver "-invalid") := rfl
example : parse "-invalid+invalid" = .error (.invalidSemver "-invalid+invalid") := rfl
example : parse "-invalid.01" = .error (.invalidSemver "-invalid.01") := rfl
example : parse "alpha" = .error (.invalidSemver "alpha") := rfl
example : parse "alpha.beta" = .error (.invalidSemver "alpha.beta") := rfl
example : parse "alpha.beta.1" = .error (.invalidSemver "alpha.beta.1") := rfl
example : parse "alpha.1" = .error (.invalidSemver "alpha.1") := rfl
example : parse "alpha+beta" = .error (.invalidSemver "alpha+beta") := rfl
example : parse "alpha_beta" = .error (.invalidSemver "alpha_beta") := rfl
example : parse "alpha." = .error (.invalidSemver "alpha.") := rfl
example : parse "alpha.." = .error (.invalidSemver "alpha..") := rfl
example : parse "beta" = .error (.invalidSemver "beta") := rfl
example : parse "1.0.0-alpha_beta" = .error (.invalidSemver "1.0.0-alpha_beta") := rfl
example : parse "-alpha." = .error (.invalidSemver "-alpha.") := rfl
example : parse "1.0.0-alpha.." = .error (.invalidSemver "1.0.0-alpha..") := rfl
example : parse "1.0.0-alpha..1" = .error (.invalidSemver "1.0.0-alpha..1") := rfl
example : parse "1.0.0-alpha...1" = .error (.invalidSemver "1.0.0-alpha...1") := rfl
example : parse "1.0.0-alpha....1" = .error (.invalidSemver "1.0.0-alpha....1") := rfl
example : parse "1.0.0-alpha.....1" = .error (.invalidSemver "1.0.0-alpha.....1") := rfl
example : parse "1.0.0-alpha......1" = .error (.invalidSemver "1.0.0-alpha......1") := rfl
example : parse "1.0.0-alpha.......1" = .error (.invalidSemver "1.0.0-alpha.......1") := rfl
example : parse "01.1.1" = .error (.invalidSemver "01.1.1") := rfl
example : parse "1.01.1" = .error (.invalidSemver "1.01.1") := rfl
example : parse "1.1.01" = .error (.invalidSemver "1.1.01") := rfl
example : parse "1.2.3.DEV" = .error (.invalidSemver "1.2.3.DEV") := rfl
example : parse "1.2-SNAPSHOT" = .error (.invalidSemver "1.2-SNAPSHOT") := rfl
example : parse "1.2.31.2.3----RC-SNAPSHOT.12.09.1--..12+788" =
    .error (.invalidSemver "1.2.31.2.3----RC-SNAPSHOT.12.09.1--..12+788") := rfl
example : parse "1.2-RC-SNAPSHOT" = .error (.invalidSemver "1.2-RC-SNAPSHOT") := rfl
example : parse "-1.0.3-gamma+b7718" = .error (.invalidSemver "-1.0.3-gamma+b7718") := rfl
example : parse "+justmeta" = .error (.invalidSemver "+justmeta") := rfl
example : parse "9.8.7+meta+meta" = .error (.invalidSemver "9.8.7+meta+meta") := rfl
example : parse "9.8.7-whatever+meta+meta" =
    .error (.invalidSemver "9.8.7-whatever+meta+meta") := rfl
example : parse "V1.2.3" = .error (.invalidSemver "V1.2.3") := rfl
example : render ⟨1, 2, 3, some "alpha", some "meta"⟩ = "1.2.3-alpha+meta" := rfl
example : render ⟨10, 20, 30, none, none⟩ = "10.20.30" := rfl

/-!
Unicode `\d` behaviour (`U+0663` is the Arabic-Indic digit three): the
regex accepts non-ASCII decimal digits in `\d` positions, `u128`
conversion rejects them in the numeric core, and the explicit ASCII
classes (`[0-9a-zA-Z-]`, `[a-zA-Z-]`) still exclude them. -/

example : parse "1.2.3-\u0663x" = .ok ⟨1, 2, 3, some "\u0663x", none⟩ := rfl
example : parse "1.2.3-1\u0663" = .ok ⟨1, 2, 3, some "1\u0663", none⟩ := rfl
example : parse "1\u0663.2.3" = .error .intParse := rfl
example : parse "1.2.\u0663" = .error (.invalidSemver "1.2.\u0663") := rfl
example : parse "1.2.3-\u0663" = .error (.invalidSemver "1.2.3-\u0663") := rfl
example : parse "1.2.3+\u0663" = .error (.invalidSemver "1.2.3+\u0663") := rfl
example : specCaptures "1.2.3-\u0663x".data = none := rfl
example : specCaptures "1.2.3".data = capturesOf "1.2.3".data := rfl
